import Mathlib

/-!
# AgentForge core: shallow embedding and verification

Shallow embedding of the intent-routing and response-scoring core of the
`agentforge` repository (`src/core/intent_router.py`,
`src/agents/prompt_optimizer.py`, `src/agents/content_optimizer.py`,
`src/agents/email_prioritizer.py`), with theorems settling the spec claims.

Python machine floats are modelled by exact rationals (`ℚ`); the scoring
arithmetic only adds, multiplies by constants, and clamps, so the claimed
bounds are the same in both semantics.  Strings are Lean `String`s viewed
as their character lists.
-/

namespace AgentForge

/-! ## Character classes

`pyAlnum` mirrors the regex class `[A-Za-z0-9]` used throughout the source;
`pyWhite` mirrors Python's `\s` on ASCII text; `isWordChar` mirrors the
word-character class `\w = [A-Za-z0-9_]` that defines `\b` boundaries. -/

def pyAlnum (c : Char) : Bool :=
  ('A' ≤ c && c ≤ 'Z') || ('a' ≤ c && c ≤ 'z') || ('0' ≤ c && c ≤ '9')

def pyWhite (c : Char) : Bool :=
  c == ' ' || c == '\t' || c == '\n' || c == '\r' || c == '\x0b' || c == '\x0c'

def isWordChar (c : Char) : Bool := pyAlnum c || c == '_'

/-! ## Token counter

`src/agents/prompt_optimizer.py`, `simple_token_count`:

    if not text: return 0
    tokens = re.findall(r"[A-Za-z0-9]+|[^\sA-Za-z0-9]", text)
    return len(tokens)

`re.findall` on this pattern scans left to right: at an alphanumeric
character it consumes the maximal alphanumeric run as one token; at any
other non-whitespace character it consumes that single character as one
token; whitespace is skipped. -/

def tokCount : List Char → Nat
  | [] => 0
  | c :: cs =>
    if pyAlnum c then 1 + tokCount (cs.dropWhile pyAlnum)
    else if pyWhite c then tokCount cs
    else 1 + tokCount cs
termination_by l => l.length
decreasing_by
  · exact Nat.lt_succ_of_le ((List.dropWhile_sublist pyAlnum).length_le)
  · exact Nat.lt_succ_self _
  · exact Nat.lt_succ_self _

def simple_token_count (text : String) : Nat :=
  if text = "" then 0 else tokCount text.toList

/-- Specification view of the token count: number of maximal alphanumeric
runs plus number of non-whitespace, non-alphanumeric characters.  A run
start is an alphanumeric character not preceded by one (`prevAl` tracks
whether the previous character was alphanumeric). -/
def runStartCount (prevAl : Bool) : List Char → Nat
  | [] => 0
  | c :: cs => (if pyAlnum c && !prevAl then 1 else 0) + runStartCount (pyAlnum c) cs

def specTokenCount (l : List Char) : Nat :=
  runStartCount false l + l.countP (fun c => !pyAlnum c && !pyWhite c)

lemma runStartCount_head_not_alnum (b : Bool) :
    ∀ l : List Char, (∀ c, l.head? = some c → pyAlnum c = false) →
      runStartCount b l = runStartCount false l := by
  intro l h
  cases l with
  | nil => rfl
  | cons c cs =>
    have hc : pyAlnum c = false := h c rfl
    simp [runStartCount, hc]

lemma runStartCount_true_dropWhile (l : List Char) :
    runStartCount true l = runStartCount true (l.dropWhile pyAlnum) := by
  induction l with
  | nil => rfl
  | cons c cs ih =>
    by_cases hc : pyAlnum c
    · simp [List.dropWhile, hc, runStartCount, ih]
    · simp [List.dropWhile, hc]

lemma countP_other_dropWhile (l : List Char) :
    (l.dropWhile pyAlnum).countP (fun c => !pyAlnum c && !pyWhite c)
      = l.countP (fun c => !pyAlnum c && !pyWhite c) := by
  induction l with
  | nil => rfl
  | cons c cs ih =>
    by_cases hc : pyAlnum c
    · simp [List.dropWhile, hc, List.countP_cons, ih]
    · simp [List.dropWhile, hc]

lemma head_dropWhile_not {p : Char → Bool} (l : List Char) :
    ∀ c, (l.dropWhile p).head? = some c → p c = false := by
  induction l with
  | nil => intro c h; simp [List.dropWhile] at h
  | cons a as ih =>
    intro c h
    by_cases ha : p a
    · exact ih c (by simpa [List.dropWhile, ha] using h)
    · simp [List.dropWhile, ha] at h
      simpa [← h] using ha

lemma tokCount_eq_spec (l : List Char) : tokCount l = specTokenCount l := by
  induction l using tokCount.induct with
  | case1 => simp [tokCount, specTokenCount, runStartCount]
  | case2 c cs hc ih =>
    have hdrop : runStartCount true cs = runStartCount false (cs.dropWhile pyAlnum) := by
      rw [runStartCount_true_dropWhile]
      exact runStartCount_head_not_alnum true _ (head_dropWhile_not cs)
    have hother : (!pyAlnum c && !pyWhite c) = false := by simp [hc]
    rw [tokCount, if_pos hc, ih]
    have h1 : specTokenCount (c :: cs)
        = 1 + runStartCount true cs + cs.countP (fun d => !pyAlnum d && !pyWhite d) := by
      simp only [specTokenCount, runStartCount, hc, List.countP_cons, hother]
      simp

    have h2 : specTokenCount (cs.dropWhile pyAlnum)
        = runStartCount true cs + cs.countP (fun d => !pyAlnum d && !pyWhite d) := by
      rw [specTokenCount, countP_other_dropWhile cs, ← hdrop]
    rw [h1, h2]
    omega
  | case3 c cs hc hw ih =>
    have hc' : pyAlnum c = false := by simpa using hc
    rw [tokCount, if_neg (by simp [hc']), if_pos hw, ih]
    simp [specTokenCount, runStartCount, hc', hw, List.countP_cons]
  | case4 c cs hc hw ih =>
    have hc' : pyAlnum c = false := by simpa using hc
    have hw' : pyWhite c = false := by simpa using hw
    rw [tokCount, if_neg (by simp [hc']), if_neg (by simp [hw']), ih]
    simp only [specTokenCount, runStartCount, hc', hw', List.countP_cons]
    simp
    omega

lemma simple_token_count_eq (s : String) : simple_token_count s = tokCount s.toList := by
  by_cases h : s = ""
  · subst h; simp [simple_token_count, tokCount]
  · simp [simple_token_count, h]

lemma dropWhile_append_cons {p : Char → Bool} (xs : List Char) (y : Char) (ys : List Char)
    (hy : p y = false) :
    (xs ++ y :: ys).dropWhile p = xs.dropWhile p ++ y :: ys := by
  induction xs with
  | nil => simp [List.dropWhile, hy]
  | cons a as ih =>
    by_cases ha : p a
    · simpa [List.dropWhile, ha] using ih
    · simp [List.dropWhile, ha]

lemma tokCount_append_space (xs ys : List Char) :
    tokCount (xs ++ ' ' :: ys) = tokCount xs + tokCount ys := by
  induction xs using tokCount.induct with
  | case1 =>
    have h1 : pyAlnum ' ' = false := by decide
    have h2 : pyWhite ' ' = true := by decide
    simp [tokCount, h1, h2]
  | case2 c cs hc ih =>
    have hsp : pyAlnum ' ' = false := by decide
    rw [List.cons_append, tokCount, if_pos hc, tokCount, if_pos hc,
      dropWhile_append_cons cs ' ' ys hsp, ih]
    omega
  | case3 c cs hc hw ih =>
    rw [List.cons_append, tokCount, if_neg hc, if_pos hw, tokCount, if_neg hc, if_pos hw, ih]
  | case4 c cs hc hw ih =>
    rw [List.cons_append, tokCount, if_neg hc, if_neg hw, tokCount, if_neg hc, if_neg hw, ih]
    omega

/-! ## String helpers

`strContains hay sub` mirrors Python's `sub in hay`; `lowerStr` mirrors
`str.lower()` (ASCII letters; the heuristics only compare ASCII keywords);
`pyStrip` mirrors `str.strip()` with no argument. -/

/-- `sub` occurs (contiguously) somewhere in `l`: try every start position. -/
def infixOfAux (sub : List Char) : List Char → Bool
  | [] => sub.isEmpty
  | c :: rest => sub.isPrefixOf (c :: rest) || infixOfAux sub rest

def strContains (hay sub : String) : Bool := infixOfAux sub.toList hay.toList

def lowerStr (s : String) : String := String.mk (s.toList.map Char.toLower)

def pyStrip (s : String) : String :=
  String.mk (((s.toList.dropWhile pyWhite).reverse.dropWhile pyWhite).reverse)

/-! ## Word-boundary regex searches

The scoring heuristics use `re.search`/`re.findall` with a handful of
patterns.  `\b` matches between a word character (`[A-Za-z0-9_]`) and a
non-word character (or text edge).  Throughout, `prevW` records whether the
character immediately before the current scan position is a word character
(`false` at the start of the text). -/

def boundaryAfter : List Char → Bool
  | [] => true
  | c :: _ => !isWordChar c

/-- `re.search(r"\bP\b", s) ≠ None` for a literal pattern `P` that starts and
ends with a word character (true of every literal pattern in the source). -/
def wbSearchAux (pat : List Char) : Bool → List Char → Bool
  | _, [] => false
  | prevW, c :: rest =>
    (!prevW && pat.isPrefixOf (c :: rest) && boundaryAfter ((c :: rest).drop pat.length))
      || wbSearchAux pat (isWordChar c) rest

def wbSearch (pat : String) (s : List Char) : Bool := wbSearchAux pat.toList false s

/-- `re.search(r"\b\d+\b", s) ≠ None`: some position has a word boundary
before it and starts a digit run whose maximal extent is followed by a
non-word character or the end of the text (shorter extents of `\d+` are
always followed by a digit, so backtracking cannot help). -/
def numSearchAux : Bool → List Char → Bool
  | _, [] => false
  | prevW, c :: rest =>
    (!prevW && c.isDigit && boundaryAfter (rest.dropWhile Char.isDigit))
      || numSearchAux (isWordChar c) rest

/-- One match step of `re.findall(r"\b\d+(?:\.\d+)?\b", s)` at a position
whose first character is a digit with a word boundary before it; `rest` is
the text after that first digit.  Returns the remainder after the matched
number, or `none` when no match starts here.  Backtracking: if the greedy
match including the decimal part fails its trailing `\b`, the optional group
is dropped and the integer part always matches because the following `'.'`
is a non-word character. -/
def numMatchEnd (rest : List Char) : Option (List Char) :=
  let r1 := rest.dropWhile Char.isDigit
  if r1.head? = some '.' ∧ (r1.tail.head?.getD ' ').isDigit = true then
    (if boundaryAfter (r1.tail.dropWhile Char.isDigit) then some (r1.tail.dropWhile Char.isDigit)
     else some r1)
  else if r1.head? = some '.' then some r1
  else if boundaryAfter r1 then some r1 else none

lemma numMatchEnd_length_le {rest r : List Char} (h : numMatchEnd rest = some r) :
    r.length ≤ rest.length := by
  have h1 : (rest.dropWhile Char.isDigit).length ≤ rest.length :=
    (List.dropWhile_sublist _).length_le
  have h2 : ((rest.dropWhile Char.isDigit).tail.dropWhile Char.isDigit).length
      ≤ rest.length := by
    calc ((rest.dropWhile Char.isDigit).tail.dropWhile Char.isDigit).length
        ≤ (rest.dropWhile Char.isDigit).tail.length := (List.dropWhile_sublist _).length_le
      _ ≤ (rest.dropWhile Char.isDigit).length := (List.tail_sublist _).length_le
      _ ≤ rest.length := h1
  simp only [numMatchEnd] at h
  split at h
  · split at h <;> · injection h with h; subst h; omega
  · split at h
    · injection h with h; subst h; omega
    · split at h
      · injection h with h; subst h; omega
      · exact absurd h (by simp)

/-- `len(re.findall(r"\b\d+(?:\.\d+)?\b", s))`: non-overlapping left-to-right
matches; after a match the scan resumes right after it (the character before
the resume point is always a digit, hence a word character). -/
def countNums (prevW : Bool) (l : List Char) : Nat :=
  match l with
  | [] => 0
  | c :: rest =>
    if !prevW && c.isDigit then
      match h : numMatchEnd rest with
      | some r => 1 + countNums true r
      | none => countNums (isWordChar c) rest
    else countNums (isWordChar c) rest
termination_by l.length
decreasing_by
  · have := numMatchEnd_length_le h
    simp only [List.length_cons]
    omega
  · simp
  · simp

/-- The `\s*%\b` tail of the percentage pattern, starting at `r`: a maximal
whitespace run, then `%`, and then — since `%` is not a word character — the
trailing `\b` holds exactly when the next character exists and is a word
character. -/
def pctTail (r : List Char) : Option (List Char) :=
  match r.dropWhile pyWhite with
  | '%' :: rr => if (rr.head?.getD ' ') |> isWordChar then some rr else none
  | _ => none

lemma pctTail_length_lt {r rr : List Char} (h : pctTail r = some rr) :
    rr.length < r.length := by
  have h1 : (r.dropWhile pyWhite).length ≤ r.length := (List.dropWhile_sublist _).length_le
  unfold pctTail at h
  split at h
  · next heq =>
    split at h
    · injection h with h
      subst h
      have := congrArg List.length heq
      simp at this
      omega
    · exact absurd h (by simp)
  · exact absurd h (by simp)

/-- One match step of `re.findall(r"\b\d+(?:\.\d+)?\s*%\b", s)` after a
leading digit with a word boundary before it; `rest` is the text after that
digit.  If the greedy attempt including the optional decimal part fails, the
regex retries without it. -/
def pctMatchEnd (rest : List Char) : Option (List Char) :=
  let r1 := rest.dropWhile Char.isDigit
  if r1.head? = some '.' ∧ (r1.tail.head?.getD ' ').isDigit = true then
    match pctTail (r1.tail.dropWhile Char.isDigit) with
    | some rr => some rr
    | none => pctTail r1
  else pctTail r1

lemma pctMatchEnd_length_le {rest r : List Char} (h : pctMatchEnd rest = some r) :
    r.length ≤ rest.length := by
  have h1 : (rest.dropWhile Char.isDigit).length ≤ rest.length :=
    (List.dropWhile_sublist _).length_le
  have h2 : ((rest.dropWhile Char.isDigit).tail.dropWhile Char.isDigit).length
      ≤ rest.length := by
    calc ((rest.dropWhile Char.isDigit).tail.dropWhile Char.isDigit).length
        ≤ (rest.dropWhile Char.isDigit).tail.length := (List.dropWhile_sublist _).length_le
      _ ≤ (rest.dropWhile Char.isDigit).length := (List.tail_sublist _).length_le
      _ ≤ rest.length := h1
  simp only [pctMatchEnd] at h
  split at h
  · split at h
    · next rr heq =>
      injection h with h
      subst h
      have := pctTail_length_lt heq
      omega
    · have := pctTail_length_lt h
      omega
  · have := pctTail_length_lt h
    omega

/-- `len(re.findall(r"\b\d+(?:\.\d+)?\s*%\b", s))`.  After a match the
character before the resume point is `%`, a non-word character, so `prevW`
resumes as `false`. -/
def countPcts (prevW : Bool) (l : List Char) : Nat :=
  match l with
  | [] => 0
  | c :: rest =>
    if !prevW && c.isDigit then
      match h : pctMatchEnd rest with
      | some r => 1 + countPcts false r
      | none => countPcts (isWordChar c) rest
    else countPcts (isWordChar c) rest
termination_by l.length
decreasing_by
  · have := pctMatchEnd_length_le h
    simp only [List.length_cons]
    omega
  · simp
  · simp

/-! ## Role-keyword findall (content_optimizer)

`re.findall(r"\b(data|ml|machine learning|engineer|developer|product|ai)\b",
lower_in)` — at each position with a word boundary before it, the
alternatives are tried in the listed order; the first one that is a prefix
here and is followed by a word boundary matches and is consumed. -/

def roleKeywordAlts : List String :=
  ["data", "ml", "machine learning", "engineer", "developer", "product", "ai"]

def altMatch : List String → List Char → Option String
  | [], _ => none
  | a :: as, s =>
    if a.toList.isPrefixOf s && boundaryAfter (s.drop a.toList.length) then some a
    else altMatch as s

lemma altMatch_mem {alts : List String} {s : List Char} {a : String}
    (h : altMatch alts s = some a) : a ∈ alts := by
  induction alts with
  | nil => exact absurd h (by simp [altMatch])
  | cons b bs ih =>
    unfold altMatch at h
    split at h
    · injection h with h; subst h; exact List.mem_cons_self ..
    · exact List.mem_cons_of_mem _ (ih h)

lemma roleKeywordAlts_ne_empty : ∀ a ∈ roleKeywordAlts, 1 ≤ a.toList.length := by
  decide

/-- The list of keywords found by the findall (with multiplicity, in match
order).  Every alternative starts and ends with a letter, so its `\b`s mean
"previous character not a word character" and "next character not a word
character", and after consuming a match `prevW` resumes as `true`. -/
def findRoleKeywords (prevW : Bool) (l : List Char) : List String :=
  match l with
  | [] => []
  | c :: rest =>
    if !prevW then
      match h : altMatch roleKeywordAlts (c :: rest) with
      | some a => a :: findRoleKeywords true ((c :: rest).drop a.toList.length)
      | none => findRoleKeywords (isWordChar c) rest
    else findRoleKeywords (isWordChar c) rest
termination_by l.length
decreasing_by
  · have ha : 1 ≤ a.toList.length := roleKeywordAlts_ne_empty a (altMatch_mem h)
    simp only [List.length_drop, List.length_cons]
    omega
  · simp
  · simp

/-! ## Urgency-score findall (email_prioritizer)

`[int(x) for x in re.findall(r'"urgency_score"\s*:\s*(\d+)', output_json_text)]` -/

def urgKey : List Char := "\"urgency_score\"".toList

def digitsVal (ds : List Char) : Nat := ds.foldl (fun n c => 10 * n + (c.toNat - 48)) 0

/-- One match attempt at the current position: the literal quoted key,
optional whitespace, `:`, optional whitespace, then a maximal digit run
(the capture).  Returns the captured value and the remainder after it. -/
def urgMatchEnd (l : List Char) : Option (Nat × List Char) :=
  if urgKey.isPrefixOf l then
    let r1 := (l.drop urgKey.length).dropWhile pyWhite
    if r1.head? = some ':' then
      let r3 := r1.tail.dropWhile pyWhite
      let ds := r3.takeWhile Char.isDigit
      if ds.isEmpty then none else some (digitsVal ds, r3.dropWhile Char.isDigit)
    else none
  else none

lemma urgMatchEnd_length_lt {l : List Char} {n : Nat} {r : List Char}
    (h : urgMatchEnd l = some (n, r)) : r.length < l.length := by
  simp only [urgMatchEnd] at h
  split at h
  · next hpre =>
    split at h
    · next hcolon =>
      split at h
      · exact absurd h (by simp)
      · next hds =>
        injection h with h
        have hr : r = (((l.drop urgKey.length).dropWhile pyWhite).tail.dropWhile
            pyWhite).dropWhile Char.isDigit := by
          have := congrArg Prod.snd h.symm
          simpa using this
        have hlen : urgKey.length ≤ l.length := by
          have := List.IsPrefix.length_le (List.isPrefixOf_iff_prefix.mp hpre)
          exact this
        have hk : urgKey.length = 15 := by decide
        have e1 : r.length ≤ ((l.drop urgKey.length).dropWhile pyWhite).tail.length := by
          rw [hr]
          calc ((((l.drop urgKey.length).dropWhile pyWhite).tail.dropWhile
                pyWhite).dropWhile Char.isDigit).length
              ≤ (((l.drop urgKey.length).dropWhile pyWhite).tail.dropWhile pyWhite).length :=
                (List.dropWhile_sublist _).length_le
            _ ≤ ((l.drop urgKey.length).dropWhile pyWhite).tail.length :=
                (List.dropWhile_sublist _).length_le
        have e2 : (((l.drop urgKey.length)).dropWhile pyWhite).length ≤ l.length - urgKey.length := by
          calc ((l.drop urgKey.length).dropWhile pyWhite).length
              ≤ (l.drop urgKey.length).length := (List.dropWhile_sublist _).length_le
            _ = l.length - urgKey.length := List.length_drop ..
        have e3 : ((l.drop urgKey.length).dropWhile pyWhite).tail.length
            ≤ ((l.drop urgKey.length).dropWhile pyWhite).length :=
          (List.tail_sublist _).length_le
        omega
    · exact absurd h (by simp)
  · exact absurd h (by simp)

/-- The list of urgency values found, in match order. -/
def findUrgencies (l : List Char) : List Nat :=
  match l with
  | [] => []
  | c :: rest =>
    match h : urgMatchEnd (c :: rest) with
    | some (n, r) => n :: findUrgencies r
    | none => findUrgencies rest
termination_by l.length
decreasing_by
  · have := urgMatchEnd_length_lt h
    simpa using this
  · simp

/-! ## Category scorers

One namespace per agent module; each mirrors its `QualityScore` dataclass
and scoring function.  Python floats are modelled exactly in `ℚ`. -/

namespace prompt_optimizer

/-- `QualityScore` of `src/agents/prompt_optimizer.py` (the `structure`
field is spelled `structure_score`, `structure` being a Lean keyword). -/
structure QualityScore where
  completeness : ℚ
  clarity : ℚ
  structure_score : ℚ
  specificity : ℚ
  overall : ℚ

/-- `score_prompt_optimization` of `src/agents/prompt_optimizer.py`. -/
def score_prompt_optimization (original optimized : String) : QualityScore :=
  let lo := lowerStr optimized
  let co_star_hits : Nat :=
    ["context", "objective", "style", "tone", "audience", "response format"].countP
      (fun kw => strContains lo kw)
  let completeness : ℚ := min 1 ((15/100) * (co_star_hits : ℚ) + 1/10)
  let opt_tokens := simple_token_count optimized
  let clarity : ℚ := if opt_tokens < 60 then 6/10 else if opt_tokens > 400 then 7/10 else 9/10
  let structure_hits : Nat :=
    (if strContains optimized "\"original_prompt\"" then 1 else 0) +
    (if strContains optimized "\"optimized_prompt\"" then 1 else 0) +
    (if strContains optimized "\"explanation\"" then 1 else 0)
  let structure_score : ℚ := 4/10 + (2/10) * (structure_hits : ℚ)
  let specificity_signals : Nat :=
    (if numSearchAux false lo.toList then 1 else 0) +
    (if wbSearch "constraint" lo.toList || wbSearch "constraints" lo.toList then 1 else 0) +
    (if wbSearch "parameter" lo.toList || wbSearch "parameters" lo.toList then 1 else 0) +
    (if wbSearch "style" lo.toList then 1 else 0) +
    (if wbSearch "tone" lo.toList then 1 else 0) +
    (if wbSearch "audience" lo.toList then 1 else 0) +
    (if wbSearch "focal length" lo.toList then 1 else 0) +
    (if wbSearch "aperture" lo.toList then 1 else 0) +
    (if wbSearch "lighting" lo.toList then 1 else 0) +
    (if wbSearch "composition" lo.toList then 1 else 0) +
    (if wbSearch "brand" lo.toList then 1 else 0)
  let specificity : ℚ := min 1 ((1/10) * (specificity_signals : ℚ) + 4/10)
  let overall : ℚ := (completeness + clarity + structure_score + specificity) / 4
  ⟨completeness, clarity, structure_score, specificity, overall⟩

end prompt_optimizer

namespace content_optimizer

/-- `QualityScore` of `src/agents/content_optimizer.py`. -/
structure QualityScore where
  achievements_signal : ℚ
  metric_density : ℚ
  tailoring_alignment : ℚ
  json_compliance : ℚ
  overall : ℚ

/-- `score_resume_rewrite` of `src/agents/content_optimizer.py`. -/
def score_resume_rewrite (input_text output_json_text : String) : QualityScore :=
  let lower_in := lowerStr input_text
  let lower_out := lowerStr output_json_text
  let action_verbs : List String :=
    ["led", "built", "designed", "shipped", "delivered", "optimized",
     "architected", "improved", "automated", "launched", "reduced", "increased",
     "enhanced", "streamlined", "developed", "managed"]
  let impact_words : List String :=
    ["impact", "resulted", "outcome", "growth", "savings", "revenue", "efficiency"]
  let verb_hits : Nat := action_verbs.countP (fun v => strContains lower_out v)
  let impact_hits : Nat := impact_words.countP (fun w => strContains lower_out w)
  let achievements_signal : ℚ :=
    min 1 ((5/100) * (verb_hits : ℚ) + (7/100) * (impact_hits : ℚ) + 4/10)
  let numbers : Nat := countNums false lower_out.toList
  let percents : Nat := countPcts false lower_out.toList
  let metric_density : ℚ :=
    min 1 ((5/100) * (numbers : ℚ) + (1/10) * (percents : ℚ) + 3/10)
  let role_keywords : List String := (findRoleKeywords false lower_in.toList).dedup
  let alignment_hits : Nat := role_keywords.countP (fun rk => strContains lower_out rk)
  let tailoring_alignment : ℚ := min 1 ((25/100) * (alignment_hits : ℚ) + 4/10)
  let required_keys : List String :=
    ["professional_summary", "experience", "skills", "education", "tailoring_notes"]
  let key_hits : Nat :=
    required_keys.countP (fun k => strContains output_json_text ("\"" ++ k ++ "\""))
  let json_compliance : ℚ := 2/10 + (15/100) * (key_hits : ℚ)
  let overall : ℚ :=
    (achievements_signal + metric_density + tailoring_alignment + json_compliance) / 4
  ⟨achievements_signal, metric_density, tailoring_alignment, json_compliance, overall⟩

end content_optimizer

namespace email_prioritizer

/-- `QualityScore` of `src/agents/email_prioritizer.py`. -/
structure QualityScore where
  triage_accuracy_signal : ℚ
  urgency_consistency : ℚ
  category_precision : ℚ
  json_validity : ℚ
  overall : ℚ

/-- `re.search(r"^\s*\[", s) ≠ None`: the text begins with optional
whitespace followed by `[` (the pattern is anchored at the start). -/
def startsWithBracket (s : String) : Bool :=
  match s.toList.dropWhile pyWhite with
  | '[' :: _ => true
  | _ => false

/-- `score_email_prioritization` of `src/agents/email_prioritizer.py`. -/
def score_email_prioritization (input_text output_json_text : String) : QualityScore :=
  let lo := lowerStr output_json_text
  let triage_fields : Nat :=
    ["sender", "subject", "urgency_score", "category", "recommended_action"].countP
      (fun k => strContains output_json_text ("\"" ++ k ++ "\""))
  let triage_accuracy_signal : ℚ := min 1 ((15/100) * (triage_fields : ℚ) + 4/10)
  let urgencies : List Nat := findUrgencies output_json_text.toList
  let urgency_consistency : ℚ :=
    if urgencies.isEmpty then 1/2
    else min 1 (1/2 + (5/100) *
      ((urgencies.countP (fun u => decide (1 ≤ u) && decide (u ≤ 10)) : ℚ)))
  let known_cats : List String :=
    ["sales", "hr", "finance", "spam", "newsletter", "support", "legal", "product"]
  let cat_hits : Nat := known_cats.countP (fun c => strContains lo ("\"" ++ c ++ "\""))
  let category_precision : ℚ := min 1 ((1/10) * (cat_hits : ℚ) + 4/10)
  let json_array_signal : Nat := if startsWithBracket output_json_text then 1 else 0
  let action_list_signal : Nat :=
    if strContains lo "do these first" || strContains lo "prioritized action list" then 1 else 0
  let json_validity : ℚ :=
    4/10 + (3/10) * (json_array_signal : ℚ) + (2/10) * (action_list_signal : ℚ)
  let overall : ℚ :=
    (triage_accuracy_signal + urgency_consistency + category_precision + json_validity) / 4
  ⟨triage_accuracy_signal, urgency_consistency, category_precision, json_validity, overall⟩

end email_prioritizer

/-! ## Intent router

`src/core/intent_router.py`.  The encoder and the similarity computation
(`util.cos_sim`) are external collaborators; `route` is therefore modelled
as a function of the similarity-score vector (one score per catalog phrase,
in insertion order) and of the fallback generation outcome.  `genReply =
some text` models a successful `self.llm.invoke(prompt)` (either branch of
the nested `try`, both of which end in `.strip()`); `genReply = none`
models the generation call raising, in which case the code sets
`response = "PromptOptimizerAgent"`. -/

namespace intent_router

/-- The `self.routes` dict, insertion order preserved (Python dicts keep
insertion order; keys are unique). -/
def routes : List (String × String) :=
  [("optimize prompt", "PromptOptimizerAgent"),
   ("improve prompt", "PromptOptimizerAgent"),
   ("better prompt", "PromptOptimizerAgent"),
   ("rewrite prompt", "PromptOptimizerAgent"),
   ("resume", "ContentRewriterAgent"),
   ("cv", "ContentRewriterAgent"),
   ("linkedin", "ContentRewriterAgent"),
   ("job description", "ContentRewriterAgent"),
   ("tailor resume", "ContentRewriterAgent"),
   ("email", "EmailPrioritizerAgent"),
   ("inbox", "EmailPrioritizerAgent"),
   ("prioritize", "EmailPrioritizerAgent"),
   ("urgent", "EmailPrioritizerAgent")]

/-- The label hard-coded in the innermost `except` branch; it is also the
label of the first-declared route. -/
def defaultLabel : String := "PromptOptimizerAgent"

def threshold : ℚ := 45/100

/-- `scores.max()` on a non-empty score tensor (the catalog is non-empty;
the `[]` case is arbitrary and kept below the threshold). -/
def maxScore : List ℚ → ℚ
  | [] => 0
  | [c] => c
  | c :: cs => max c (maxScore cs)

/-- `np.argmax(scores)`: the first index attaining the maximum (numpy
returns the first occurrence on ties). -/
def argmaxIdx : List ℚ → Nat
  | [] => 0
  | [_] => 0
  | c :: cs => if maxScore cs ≤ c then 0 else argmaxIdx cs + 1

structure RouteResult where
  label : String
  usedFallback : Bool

/-- `IntentRouter.route`: semantic path when the maximum similarity clears
the threshold, otherwise the LLM fallback.  The log emissions have no
effect on the returned value and are omitted. -/
def route (scores : List ℚ) (genReply : Option String) : RouteResult :=
  if threshold < maxScore scores then
    { label := (routes.getD (argmaxIdx scores) ("", "")).2, usedFallback := false }
  else
    match genReply with
    | some r => { label := pyStrip r, usedFallback := true }
    | none => { label := defaultLabel, usedFallback := true }

lemma maxScore_cons_cons (c d : ℚ) (cs : List ℚ) :
    maxScore (c :: d :: cs) = max c (maxScore (d :: cs)) := rfl

lemma argmaxIdx_cons_cons (c d : ℚ) (cs : List ℚ) :
    argmaxIdx (c :: d :: cs)
      = if maxScore (d :: cs) ≤ c then 0 else argmaxIdx (d :: cs) + 1 := rfl

lemma argmaxIdx_lt_length : ∀ l : List ℚ, l ≠ [] → argmaxIdx l < l.length := by
  intro l
  induction l with
  | nil => intro h; exact absurd rfl h
  | cons c cs ih =>
    intro _
    cases cs with
    | nil => simp [argmaxIdx]
    | cons d ds =>
      rw [argmaxIdx_cons_cons]
      split
      · simp
      · have := ih (by simp)
        simpa using Nat.succ_lt_succ this

lemma getD_argmaxIdx : ∀ l : List ℚ, l ≠ [] → l.getD (argmaxIdx l) 0 = maxScore l := by
  intro l
  induction l with
  | nil => intro h; exact absurd rfl h
  | cons c cs ih =>
    intro _
    cases cs with
    | nil => simp [argmaxIdx, maxScore]
    | cons d ds =>
      rw [argmaxIdx_cons_cons, maxScore_cons_cons]
      split
      · next h => simp [max_eq_left h]
      · next h =>
        have hlt : c < maxScore (d :: ds) := lt_of_not_le h
        rw [max_eq_right hlt.le]
        simpa using ih (by simp)

lemma getD_lt_maxScore_of_lt_argmaxIdx :
    ∀ l : List ℚ, ∀ j, j < argmaxIdx l → l.getD j 0 < maxScore l := by
  intro l
  induction l with
  | nil => intro j h; simp [argmaxIdx] at h
  | cons c cs ih =>
    intro j hj
    cases cs with
    | nil => simp [argmaxIdx] at hj
    | cons d ds =>
      rw [argmaxIdx_cons_cons] at hj
      rw [maxScore_cons_cons]
      split at hj
      · omega
      · next h =>
        have hlt : c < maxScore (d :: ds) := lt_of_not_le h
        rw [max_eq_right hlt.le]
        cases j with
        | zero => simpa using hlt
        | succ j =>
          have : j < argmaxIdx (d :: ds) := by omega
          simpa using ih j this

lemma getD_mem_of_lt {l : List (String × String)} {i : Nat} (h : i < l.length) (d : String × String) :
    l.getD i d ∈ l := by
  rw [List.getD_eq_getElem l d h]
  exact List.getElem_mem h

end intent_router

/-! ## Cosine similarity -/

namespace similarity

/-- Modelled from the spec: the similarity computation used by the router
(`util.cos_sim` of the `sentence_transformers` collaborator) is not part of
this repository; §4.2 defines it as `dot(a,b)/(‖a‖·‖b‖)` on embedding
vectors, "with the convention that similarity against a zero vector is
defined as 0 (not NaN/undefined)".  Vectors are finite sequences of reals;
`dotL` truncates to the common length. -/
noncomputable def dotL (a b : List ℝ) : ℝ := (List.zipWith (fun x y => x * y) a b).sum

noncomputable def normL (a : List ℝ) : ℝ := Real.sqrt (dotL a a)

open Classical in
/-- Modelled from the spec: `cosine_similarity(a, b)` of §4.2. -/
noncomputable def cosineSimilarity (a b : List ℝ) : ℝ :=
  if normL a * normL b = 0 then 0 else dotL a b / (normL a * normL b)

lemma dotL_comm (a b : List ℝ) : dotL a b = dotL b a := by
  unfold dotL
  rw [List.zipWith_comm_of_comm]
  exact fun x y => mul_comm x y

lemma dotL_eq_sum (a b : List ℝ) :
    dotL a b = ∑ i ∈ Finset.range (min a.length b.length), a.getD i 0 * b.getD i 0 := by
  induction a generalizing b with
  | nil => simp [dotL]
  | cons x xs ih =>
    cases b with
    | nil => simp [dotL]
    | cons y ys =>
      have : min (x :: xs).length (y :: ys).length = min xs.length ys.length + 1 := by
        simp [Nat.succ_min_succ]
      rw [this, Finset.sum_range_succ']
      simp only [List.getD_cons_succ, List.getD_cons_zero]
      have hstep : dotL (x :: xs) (y :: ys) = x * y + dotL xs ys := by
        simp [dotL]
      rw [hstep, ih ys]
      ring

lemma dotL_self_nonneg (a : List ℝ) : 0 ≤ dotL a a := by
  rw [dotL_eq_sum]
  exact Finset.sum_nonneg (fun i _ => mul_self_nonneg _)

lemma sum_sq_le_dotL_self (a : List ℝ) (n : ℕ) (hn : n ≤ a.length) :
    ∑ i ∈ Finset.range n, (a.getD i 0) ^ 2 ≤ dotL a a := by
  rw [dotL_eq_sum]
  simp only [Nat.min_self]
  calc ∑ i ∈ Finset.range n, (a.getD i 0) ^ 2
      ≤ ∑ i ∈ Finset.range a.length, (a.getD i 0) ^ 2 := by
        exact Finset.sum_le_sum_of_subset_of_nonneg
          (Finset.range_subset.mpr hn) (fun i _ _ => sq_nonneg _)
    _ = ∑ i ∈ Finset.range a.length, a.getD i 0 * a.getD i 0 := by
        refine Finset.sum_congr rfl (fun i _ => ?_)
        ring

lemma dot_le_norm_mul_norm (a b : List ℝ) : dotL a b ≤ normL a * normL b := by
  set n := min a.length b.length with hn
  have h1 : dotL a b ≤ Real.sqrt (∑ i ∈ Finset.range n, (a.getD i 0) ^ 2)
      * Real.sqrt (∑ i ∈ Finset.range n, (b.getD i 0) ^ 2) := by
    rw [dotL_eq_sum]
    exact Real.sum_mul_le_sqrt_mul_sqrt _ _ _
  have h2 : Real.sqrt (∑ i ∈ Finset.range n, (a.getD i 0) ^ 2) ≤ normL a :=
    Real.sqrt_le_sqrt (sum_sq_le_dotL_self a n (Nat.min_le_left _ _))
  have h3 : Real.sqrt (∑ i ∈ Finset.range n, (b.getD i 0) ^ 2) ≤ normL b :=
    Real.sqrt_le_sqrt (sum_sq_le_dotL_self b n (Nat.min_le_right _ _))
  calc dotL a b ≤ _ := h1
    _ ≤ normL a * normL b := by
        exact mul_le_mul h2 h3 (Real.sqrt_nonneg _) (Real.sqrt_nonneg _)

lemma abs_dot_le_norm_mul_norm (a b : List ℝ) : |dotL a b| ≤ normL a * normL b := by
  rw [abs_le]
  refine ⟨?_, dot_le_norm_mul_norm a b⟩
  have h := dot_le_norm_mul_norm (a.map (fun x => -x)) b
  have hd : dotL (a.map (fun x => -x)) b = -dotL a b := by
    rw [dotL_eq_sum, dotL_eq_sum, ← Finset.sum_neg_distrib]
    simp only [List.length_map]
    refine Finset.sum_congr rfl (fun i hi => ?_)
    have hi' : i < a.length := by
      have := Finset.mem_range.mp hi
      omega
    rw [List.getD_eq_getElem _ _ (by simpa using hi'), List.getD_eq_getElem _ _ hi']
    simp
  have hnorm : normL (a.map (fun x => -x)) = normL a := by
    unfold normL
    congr 1
    rw [dotL_eq_sum, dotL_eq_sum]
    simp only [List.length_map]
    refine Finset.sum_congr rfl (fun i hi => ?_)
    have hi' : i < a.length := by
      have := Finset.mem_range.mp hi
      simpa using this
    rw [List.getD_eq_getElem _ _ (by simpa using hi'), List.getD_eq_getElem _ _ hi']
    simp
  rw [hd, hnorm] at h
  linarith

lemma dotL_replicate_zero (n : ℕ) : dotL (List.replicate n (0 : ℝ)) (List.replicate n 0) = 0 := by
  induction n with
  | zero => simp [dotL]
  | succ k ih =>
    simp only [List.replicate_succ]
    have : dotL ((0 : ℝ) :: List.replicate k 0) (0 :: List.replicate k 0)
        = 0 * 0 + dotL (List.replicate k 0) (List.replicate k 0) := by
      simp [dotL]
    rw [this, ih]
    ring

end similarity

/-! ## Projection equations and bounds for the scorers -/

def inUnit (x : ℚ) : Prop := 0 ≤ x ∧ x ≤ 1

lemma le_min_one {b x : ℚ} (hb : b ≤ 1) (hx : b ≤ x) : b ≤ min 1 x := le_min hb hx

lemma countP_cast_le {α : Type} (p : α → Bool) (l : List α) :
    ((l.countP p : Nat) : ℚ) ≤ (l.length : ℚ) := by
  have := List.countP_le_length (p := p) (l := l)
  exact_mod_cast this

namespace prompt_optimizer

lemma completeness_eq (req resp : String) :
    (score_prompt_optimization req resp).completeness
      = min 1 ((15/100) * ((["context", "objective", "style", "tone", "audience",
          "response format"].countP (fun kw => strContains (lowerStr resp) kw) : Nat) : ℚ)
        + 1/10) := rfl

lemma clarity_eq (req resp : String) :
    (score_prompt_optimization req resp).clarity
      = (if simple_token_count resp < 60 then (6/10 : ℚ)
         else if simple_token_count resp > 400 then 7/10 else 9/10) := rfl

lemma structure_score_eq (req resp : String) :
    (score_prompt_optimization req resp).structure_score
      = 4/10 + (2/10) * ((((if strContains resp "\"original_prompt\"" then 1 else 0) +
          (if strContains resp "\"optimized_prompt\"" then 1 else 0) +
          (if strContains resp "\"explanation\"" then 1 else 0) : Nat)) : ℚ) := rfl

lemma specificity_eq (req resp : String) :
    (score_prompt_optimization req resp).specificity
      = min 1 ((1/10) * ((((if numSearchAux false (lowerStr resp).toList then 1 else 0) +
          (if wbSearch "constraint" (lowerStr resp).toList
              || wbSearch "constraints" (lowerStr resp).toList then 1 else 0) +
          (if wbSearch "parameter" (lowerStr resp).toList
              || wbSearch "parameters" (lowerStr resp).toList then 1 else 0) +
          (if wbSearch "style" (lowerStr resp).toList then 1 else 0) +
          (if wbSearch "tone" (lowerStr resp).toList then 1 else 0) +
          (if wbSearch "audience" (lowerStr resp).toList then 1 else 0) +
          (if wbSearch "focal length" (lowerStr resp).toList then 1 else 0) +
          (if wbSearch "aperture" (lowerStr resp).toList then 1 else 0) +
          (if wbSearch "lighting" (lowerStr resp).toList then 1 else 0) +
          (if wbSearch "composition" (lowerStr resp).toList then 1 else 0) +
          (if wbSearch "brand" (lowerStr resp).toList then 1 else 0) : Nat)) : ℚ)
        + 4/10) := rfl

lemma prompt_overall_eq (req resp : String) :
    (score_prompt_optimization req resp).overall
      = ((score_prompt_optimization req resp).completeness
          + (score_prompt_optimization req resp).clarity
          + (score_prompt_optimization req resp).structure_score
          + (score_prompt_optimization req resp).specificity) / 4 := rfl

lemma completeness_bounds (req resp : String) :
    1/10 ≤ (score_prompt_optimization req resp).completeness ∧
    (score_prompt_optimization req resp).completeness ≤ 1 := by
  rw [completeness_eq]
  refine ⟨le_min_one (by norm_num) ?_, min_le_left _ _⟩
  have : (0 : ℚ) ≤ ((["context", "objective", "style", "tone", "audience",
      "response format"].countP (fun kw => strContains (lowerStr resp) kw) : Nat) : ℚ) := by
    positivity
  linarith

lemma clarity_bounds (req resp : String) :
    6/10 ≤ (score_prompt_optimization req resp).clarity ∧
    (score_prompt_optimization req resp).clarity ≤ 1 := by
  rw [clarity_eq]
  split
  · norm_num
  · split <;> norm_num

lemma structure_score_bounds (req resp : String) :
    4/10 ≤ (score_prompt_optimization req resp).structure_score ∧
    (score_prompt_optimization req resp).structure_score ≤ 1 := by
  rw [structure_score_eq]
  have h3 : ((if strContains resp "\"original_prompt\"" then 1 else 0) +
      (if strContains resp "\"optimized_prompt\"" then 1 else 0) +
      (if strContains resp "\"explanation\"" then 1 else 0) : Nat) ≤ 3 := by
    split <;> split <;> split <;> omega
  have h3' : ((((if strContains resp "\"original_prompt\"" then 1 else 0) +
      (if strContains resp "\"optimized_prompt\"" then 1 else 0) +
      (if strContains resp "\"explanation\"" then 1 else 0) : Nat)) : ℚ) ≤ 3 := by
    exact_mod_cast h3
  have h0 : (0 : ℚ) ≤ ((((if strContains resp "\"original_prompt\"" then 1 else 0) +
      (if strContains resp "\"optimized_prompt\"" then 1 else 0) +
      (if strContains resp "\"explanation\"" then 1 else 0) : Nat)) : ℚ) := by
    positivity
  constructor <;> linarith

lemma specificity_bounds (req resp : String) :
    4/10 ≤ (score_prompt_optimization req resp).specificity ∧
    (score_prompt_optimization req resp).specificity ≤ 1 := by
  rw [specificity_eq]
  refine ⟨le_min_one (by norm_num) ?_, min_le_left _ _⟩
  have : (0 : ℚ) ≤ ((((if numSearchAux false (lowerStr resp).toList then 1 else 0) +
      (if wbSearch "constraint" (lowerStr resp).toList
          || wbSearch "constraints" (lowerStr resp).toList then 1 else 0) +
      (if wbSearch "parameter" (lowerStr resp).toList
          || wbSearch "parameters" (lowerStr resp).toList then 1 else 0) +
      (if wbSearch "style" (lowerStr resp).toList then 1 else 0) +
      (if wbSearch "tone" (lowerStr resp).toList then 1 else 0) +
      (if wbSearch "audience" (lowerStr resp).toList then 1 else 0) +
      (if wbSearch "focal length" (lowerStr resp).toList then 1 else 0) +
      (if wbSearch "aperture" (lowerStr resp).toList then 1 else 0) +
      (if wbSearch "lighting" (lowerStr resp).toList then 1 else 0) +
      (if wbSearch "composition" (lowerStr resp).toList then 1 else 0) +
      (if wbSearch "brand" (lowerStr resp).toList then 1 else 0) : Nat)) : ℚ) := by
    positivity
  linarith

end prompt_optimizer

namespace content_optimizer

lemma achievements_signal_eq (req resp : String) :
    (score_resume_rewrite req resp).achievements_signal
      = min 1 ((5/100) * ((["led", "built", "designed", "shipped", "delivered", "optimized",
            "architected", "improved", "automated", "launched", "reduced", "increased",
            "enhanced", "streamlined", "developed", "managed"].countP
            (fun v => strContains (lowerStr resp) v) : Nat) : ℚ)
        + (7/100) * ((["impact", "resulted", "outcome", "growth", "savings", "revenue",
            "efficiency"].countP (fun w => strContains (lowerStr resp) w) : Nat) : ℚ)
        + 4/10) := rfl

lemma metric_density_eq (req resp : String) :
    (score_resume_rewrite req resp).metric_density
      = min 1 ((5/100) * ((countNums false (lowerStr resp).toList : Nat) : ℚ)
        + (1/10) * ((countPcts false (lowerStr resp).toList : Nat) : ℚ) + 3/10) := rfl

lemma tailoring_alignment_eq (req resp : String) :
    (score_resume_rewrite req resp).tailoring_alignment
      = min 1 ((25/100) * (((findRoleKeywords false (lowerStr req).toList).dedup.countP
          (fun rk => strContains (lowerStr resp) rk) : Nat) : ℚ) + 4/10) := rfl

lemma json_compliance_eq (req resp : String) :
    (score_resume_rewrite req resp).json_compliance
      = 2/10 + (15/100) * ((["professional_summary", "experience", "skills", "education",
          "tailoring_notes"].countP
          (fun k => strContains resp ("\"" ++ k ++ "\"")) : Nat) : ℚ) := rfl

lemma resume_overall_eq (req resp : String) :
    (score_resume_rewrite req resp).overall
      = ((score_resume_rewrite req resp).achievements_signal
          + (score_resume_rewrite req resp).metric_density
          + (score_resume_rewrite req resp).tailoring_alignment
          + (score_resume_rewrite req resp).json_compliance) / 4 := rfl

lemma achievements_signal_bounds (req resp : String) :
    4/10 ≤ (score_resume_rewrite req resp).achievements_signal ∧
    (score_resume_rewrite req resp).achievements_signal ≤ 1 := by
  rw [achievements_signal_eq]
  refine ⟨le_min_one (by norm_num) ?_, min_le_left _ _⟩
  have h1 : (0 : ℚ) ≤ ((["led", "built", "designed", "shipped", "delivered", "optimized",
      "architected", "improved", "automated", "launched", "reduced", "increased",
      "enhanced", "streamlined", "developed", "managed"].countP
      (fun v => strContains (lowerStr resp) v) : Nat) : ℚ) := by positivity
  have h2 : (0 : ℚ) ≤ ((["impact", "resulted", "outcome", "growth", "savings", "revenue",
      "efficiency"].countP (fun w => strContains (lowerStr resp) w) : Nat) : ℚ) := by
    positivity
  linarith

lemma metric_density_bounds (req resp : String) :
    3/10 ≤ (score_resume_rewrite req resp).metric_density ∧
    (score_resume_rewrite req resp).metric_density ≤ 1 := by
  rw [metric_density_eq]
  refine ⟨le_min_one (by norm_num) ?_, min_le_left _ _⟩
  have h1 : (0 : ℚ) ≤ ((countNums false (lowerStr resp).toList : Nat) : ℚ) := by positivity
  have h2 : (0 : ℚ) ≤ ((countPcts false (lowerStr resp).toList : Nat) : ℚ) := by positivity
  linarith

lemma tailoring_alignment_bounds (req resp : String) :
    4/10 ≤ (score_resume_rewrite req resp).tailoring_alignment ∧
    (score_resume_rewrite req resp).tailoring_alignment ≤ 1 := by
  rw [tailoring_alignment_eq]
  refine ⟨le_min_one (by norm_num) ?_, min_le_left _ _⟩
  have h1 : (0 : ℚ) ≤ (((findRoleKeywords false (lowerStr req).toList).dedup.countP
      (fun rk => strContains (lowerStr resp) rk) : Nat) : ℚ) := by positivity
  linarith

lemma json_compliance_bounds (req resp : String) :
    2/10 ≤ (score_resume_rewrite req resp).json_compliance ∧
    (score_resume_rewrite req resp).json_compliance ≤ 1 := by
  rw [json_compliance_eq]
  have h0 : (0 : ℚ) ≤ ((["professional_summary", "experience", "skills", "education",
      "tailoring_notes"].countP (fun k => strContains resp ("\"" ++ k ++ "\"")) : Nat) : ℚ) := by
    positivity
  have h5 : ((["professional_summary", "experience", "skills", "education",
      "tailoring_notes"].countP (fun k => strContains resp ("\"" ++ k ++ "\"")) : Nat) : ℚ)
      ≤ 5 := by
    have := countP_cast_le (fun k => strContains resp ("\"" ++ k ++ "\""))
      ["professional_summary", "experience", "skills", "education", "tailoring_notes"]
    simpa using this
  constructor <;> linarith

end content_optimizer

namespace email_prioritizer

lemma triage_accuracy_signal_eq (req resp : String) :
    (score_email_prioritization req resp).triage_accuracy_signal
      = min 1 ((15/100) * ((["sender", "subject", "urgency_score", "category",
          "recommended_action"].countP
          (fun k => strContains resp ("\"" ++ k ++ "\"")) : Nat) : ℚ) + 4/10) := rfl

lemma urgency_consistency_eq (req resp : String) :
    (score_email_prioritization req resp).urgency_consistency
      = (if (findUrgencies resp.toList).isEmpty then (1/2 : ℚ)
         else min 1 (1/2 + (5/100) *
           (((findUrgencies resp.toList).countP
             (fun u => decide (1 ≤ u) && decide (u ≤ 10)) : Nat) : ℚ))) := rfl

lemma category_precision_eq (req resp : String) :
    (score_email_prioritization req resp).category_precision
      = min 1 ((1/10) * ((["sales", "hr", "finance", "spam", "newsletter", "support",
          "legal", "product"].countP
          (fun c => strContains (lowerStr resp) ("\"" ++ c ++ "\"")) : Nat) : ℚ)
        + 4/10) := rfl

lemma json_validity_eq (req resp : String) :
    (score_email_prioritization req resp).json_validity
      = 4/10 + (3/10) * (((if startsWithBracket resp then 1 else 0 : Nat)) : ℚ)
        + (2/10) * (((if strContains (lowerStr resp) "do these first"
            || strContains (lowerStr resp) "prioritized action list"
          then 1 else 0 : Nat)) : ℚ) := rfl

lemma email_overall_eq (req resp : String) :
    (score_email_prioritization req resp).overall
      = ((score_email_prioritization req resp).triage_accuracy_signal
          + (score_email_prioritization req resp).urgency_consistency
          + (score_email_prioritization req resp).category_precision
          + (score_email_prioritization req resp).json_validity) / 4 := rfl

lemma triage_accuracy_signal_bounds (req resp : String) :
    4/10 ≤ (score_email_prioritization req resp).triage_accuracy_signal ∧
    (score_email_prioritization req resp).triage_accuracy_signal ≤ 1 := by
  rw [triage_accuracy_signal_eq]
  refine ⟨le_min_one (by norm_num) ?_, min_le_left _ _⟩
  have h0 : (0 : ℚ) ≤ ((["sender", "subject", "urgency_score", "category",
      "recommended_action"].countP
      (fun k => strContains resp ("\"" ++ k ++ "\"")) : Nat) : ℚ) := by positivity
  linarith

lemma urgency_consistency_bounds (req resp : String) :
    1/2 ≤ (score_email_prioritization req resp).urgency_consistency ∧
    (score_email_prioritization req resp).urgency_consistency ≤ 1 := by
  rw [urgency_consistency_eq]
  split
  · norm_num
  · refine ⟨le_min_one (by norm_num) ?_, min_le_left _ _⟩
    have h0 : (0 : ℚ) ≤ (((findUrgencies resp.toList).countP
        (fun u => decide (1 ≤ u) && decide (u ≤ 10)) : Nat) : ℚ) := by positivity
    linarith

lemma category_precision_bounds (req resp : String) :
    4/10 ≤ (score_email_prioritization req resp).category_precision ∧
    (score_email_prioritization req resp).category_precision ≤ 1 := by
  rw [category_precision_eq]
  refine ⟨le_min_one (by norm_num) ?_, min_le_left _ _⟩
  have h0 : (0 : ℚ) ≤ ((["sales", "hr", "finance", "spam", "newsletter", "support",
      "legal", "product"].countP
      (fun c => strContains (lowerStr resp) ("\"" ++ c ++ "\"")) : Nat) : ℚ) := by positivity
  linarith

lemma json_validity_bounds (req resp : String) :
    4/10 ≤ (score_email_prioritization req resp).json_validity ∧
    (score_email_prioritization req resp).json_validity ≤ 1 := by
  rw [json_validity_eq]
  constructor <;> split <;> split <;> norm_num

end email_prioritizer

/-! ## Claim theorems -/

/-- C4: for every (request, response) text pair, each named sub-score
returned by each of the three category scorers — prompt optimization
(`score_prompt_optimization`), content rewriting (`score_resume_rewrite`),
and email triage (`score_email_prioritization`) — lies in the closed
interval [0, 1]. -/
theorem C4_subscores_in_unit_interval (req resp : String) :
    (inUnit (prompt_optimizer.score_prompt_optimization req resp).completeness ∧
     inUnit (prompt_optimizer.score_prompt_optimization req resp).clarity ∧
     inUnit (prompt_optimizer.score_prompt_optimization req resp).structure_score ∧
     inUnit (prompt_optimizer.score_prompt_optimization req resp).specificity) ∧
    (inUnit (content_optimizer.score_resume_rewrite req resp).achievements_signal ∧
     inUnit (content_optimizer.score_resume_rewrite req resp).metric_density ∧
     inUnit (content_optimizer.score_resume_rewrite req resp).tailoring_alignment ∧
     inUnit (content_optimizer.score_resume_rewrite req resp).json_compliance) ∧
    (inUnit (email_prioritizer.score_email_prioritization req resp).triage_accuracy_signal ∧
     inUnit (email_prioritizer.score_email_prioritization req resp).urgency_consistency ∧
     inUnit (email_prioritizer.score_email_prioritization req resp).category_precision ∧
     inUnit (email_prioritizer.score_email_prioritization req resp).json_validity) := by
  obtain ⟨p1, p1'⟩ := prompt_optimizer.completeness_bounds req resp
  obtain ⟨p2, p2'⟩ := prompt_optimizer.clarity_bounds req resp
  obtain ⟨p3, p3'⟩ := prompt_optimizer.structure_score_bounds req resp
  obtain ⟨p4, p4'⟩ := prompt_optimizer.specificity_bounds req resp
  obtain ⟨c1, c1'⟩ := content_optimizer.achievements_signal_bounds req resp
  obtain ⟨c2, c2'⟩ := content_optimizer.metric_density_bounds req resp
  obtain ⟨c3, c3'⟩ := content_optimizer.tailoring_alignment_bounds req resp
  obtain ⟨c4, c4'⟩ := content_optimizer.json_compliance_bounds req resp
  obtain ⟨e1, e1'⟩ := email_prioritizer.triage_accuracy_signal_bounds req resp
  obtain ⟨e2, e2'⟩ := email_prioritizer.urgency_consistency_bounds req resp
  obtain ⟨e3, e3'⟩ := email_prioritizer.category_precision_bounds req resp
  obtain ⟨e4, e4'⟩ := email_prioritizer.json_validity_bounds req resp
  refine ⟨⟨⟨?_, p1'⟩, ⟨?_, p2'⟩, ⟨?_, p3'⟩, ⟨?_, p4'⟩⟩,
    ⟨⟨?_, c1'⟩, ⟨?_, c2'⟩, ⟨?_, c3'⟩, ⟨?_, c4'⟩⟩,
    ⟨⟨?_, e1'⟩, ⟨?_, e2'⟩, ⟨?_, e3'⟩, ⟨?_, e4'⟩⟩⟩ <;> linarith

/-- C5: for every (request, response) text pair and every category scorer,
the returned `overall` equals the unweighted arithmetic mean of the four
returned sub-scores — it is recomputed from them by construction (exact in
`ℚ`, hence within floating rounding of the Python value). -/
theorem C5_overall_is_mean_of_subscores (req resp : String) :
    (prompt_optimizer.score_prompt_optimization req resp).overall
      = ((prompt_optimizer.score_prompt_optimization req resp).completeness
        + (prompt_optimizer.score_prompt_optimization req resp).clarity
        + (prompt_optimizer.score_prompt_optimization req resp).structure_score
        + (prompt_optimizer.score_prompt_optimization req resp).specificity) / 4 ∧
    (content_optimizer.score_resume_rewrite req resp).overall
      = ((content_optimizer.score_resume_rewrite req resp).achievements_signal
        + (content_optimizer.score_resume_rewrite req resp).metric_density
        + (content_optimizer.score_resume_rewrite req resp).tailoring_alignment
        + (content_optimizer.score_resume_rewrite req resp).json_compliance) / 4 ∧
    (email_prioritizer.score_email_prioritization req resp).overall
      = ((email_prioritizer.score_email_prioritization req resp).triage_accuracy_signal
        + (email_prioritizer.score_email_prioritization req resp).urgency_consistency
        + (email_prioritizer.score_email_prioritization req resp).category_precision
        + (email_prioritizer.score_email_prioritization req resp).json_validity) / 4 :=
  ⟨rfl, rfl, rfl⟩

/-- C10: every scorer's sub-scores have strictly positive baseline lower
bounds, so for every pair — empty responses included — `overall` exceeds
0.3: prompt optimization guarantees overall ≥ 0.375, content rewriting
≥ 0.325, email triage ≥ 0.425; no response ever scores 0. -/
theorem C10_overall_lower_bounds (req resp : String) :
    3/8 ≤ (prompt_optimizer.score_prompt_optimization req resp).overall ∧
    13/40 ≤ (content_optimizer.score_resume_rewrite req resp).overall ∧
    17/40 ≤ (email_prioritizer.score_email_prioritization req resp).overall ∧
    3/10 < (prompt_optimizer.score_prompt_optimization req resp).overall ∧
    3/10 < (content_optimizer.score_resume_rewrite req resp).overall ∧
    3/10 < (email_prioritizer.score_email_prioritization req resp).overall := by
  obtain ⟨p1, -⟩ := prompt_optimizer.completeness_bounds req resp
  obtain ⟨p2, -⟩ := prompt_optimizer.clarity_bounds req resp
  obtain ⟨p3, -⟩ := prompt_optimizer.structure_score_bounds req resp
  obtain ⟨p4, -⟩ := prompt_optimizer.specificity_bounds req resp
  obtain ⟨c1, -⟩ := content_optimizer.achievements_signal_bounds req resp
  obtain ⟨c2, -⟩ := content_optimizer.metric_density_bounds req resp
  obtain ⟨c3, -⟩ := content_optimizer.tailoring_alignment_bounds req resp
  obtain ⟨c4, -⟩ := content_optimizer.json_compliance_bounds req resp
  obtain ⟨e1, -⟩ := email_prioritizer.triage_accuracy_signal_bounds req resp
  obtain ⟨e2, -⟩ := email_prioritizer.urgency_consistency_bounds req resp
  obtain ⟨e3, -⟩ := email_prioritizer.category_precision_bounds req resp
  obtain ⟨e4, -⟩ := email_prioritizer.json_validity_bounds req resp
  rw [prompt_optimizer.prompt_overall_eq, content_optimizer.resume_overall_eq,
    email_prioritizer.email_overall_eq]
  refine ⟨by linarith, by linarith, by linarith, by linarith, by linarith, by linarith⟩

/-- C6: the token counter returns a non-negative integer (a `Nat`) for every
string, `count("") = 0`, `count("hello world") = 2`, `count("a, b!") = 4`,
and in general it counts each maximal run of alphanumeric characters as one
token (`runStartCount` counts the positions where such a run starts) and
each individual non-whitespace, non-alphanumeric character as one token,
whitespace contributing nothing. -/
theorem C6_token_counter_spec :
    simple_token_count "" = 0 ∧
    simple_token_count "hello world" = 2 ∧
    simple_token_count "a, b!" = 4 ∧
    ∀ s : String, simple_token_count s
      = runStartCount false s.toList
        + s.toList.countP (fun c => !pyAlnum c && !pyWhite c) := by
  have key : ∀ s : String, simple_token_count s
      = runStartCount false s.toList + s.toList.countP (fun c => !pyAlnum c && !pyWhite c) :=
    fun s => by rw [simple_token_count_eq, tokCount_eq_spec]; rfl
  refine ⟨?_, ?_, ?_, key⟩
  · rw [key]; decide
  · rw [key]; decide
  · rw [key]; decide

/-- C9: token counting is additive over whitespace-separated concatenation:
for all strings `a` and `b`,
`simple_token_count (a ++ " " ++ b) = simple_token_count a + simple_token_count b`
(the space terminates any alphanumeric run of `a` and contributes no token). -/
theorem C9_token_count_additive (a b : String) :
    simple_token_count (a ++ " " ++ b) = simple_token_count a + simple_token_count b := by
  rw [simple_token_count_eq, simple_token_count_eq, simple_token_count_eq]
  have h : (a ++ " " ++ b).toList = a.toList ++ ' ' :: b.toList := by
    show (a ++ " " ++ b).data = a.data ++ ' ' :: b.data
    rw [String.data_append, String.data_append]
    have : (" " : String).data = [' '] := rfl
    rw [this, List.append_assoc]
    rfl
  rw [h, tokCount_append_space]

/-- C2: for every input whose maximum similarity against the catalog
strictly exceeds the 0.45 threshold, `route` returns the catalog label at
the argmax index, the argmax index is the first (lowest insertion) index
attaining the maximum, and the fallback generation is not used on that
call. -/
theorem C2_semantic_path_argmax (scores : List ℚ) (genReply : Option String)
    (hconf : intent_router.threshold < intent_router.maxScore scores) :
    (intent_router.route scores genReply).label
        = (intent_router.routes.getD (intent_router.argmaxIdx scores) ("", "")).2 ∧
    (intent_router.route scores genReply).usedFallback = false ∧
    scores.getD (intent_router.argmaxIdx scores) 0 = intent_router.maxScore scores ∧
    (∀ j, j < intent_router.argmaxIdx scores →
      scores.getD j 0 < intent_router.maxScore scores) := by
  have hne : scores ≠ [] := by
    intro h
    subst h
    rw [show intent_router.maxScore [] = 0 from rfl] at hconf
    norm_num [intent_router.threshold] at hconf
  refine ⟨?_, ?_, intent_router.getD_argmaxIdx scores hne,
    intent_router.getD_lt_maxScore_of_lt_argmaxIdx scores⟩
  · unfold intent_router.route
    rw [if_pos hconf]
  · unfold intent_router.route
    rw [if_pos hconf]

/-- Witness for C2 at a concrete score vector with a tie at the maximum
(indices 1 and 2): the semantic path fires and the argmax is index 1. -/
theorem C2_semantic_path_argmax_witness :
    intent_router.threshold < intent_router.maxScore [2/10, 9/10, 9/10, 1/10] ∧
    ((intent_router.route [2/10, 9/10, 9/10, 1/10] none).label
        = (intent_router.routes.getD (intent_router.argmaxIdx [2/10, 9/10, 9/10, 1/10])
            ("", "")).2 ∧
     (intent_router.route [2/10, 9/10, 9/10, 1/10] none).usedFallback = false ∧
     [2/10, 9/10, 9/10, 1/10].getD (intent_router.argmaxIdx [2/10, 9/10, 9/10, 1/10]) 0
        = intent_router.maxScore [2/10, 9/10, 9/10, 1/10] ∧
     (∀ j, j < intent_router.argmaxIdx [2/10, 9/10, 9/10, 1/10] →
        [2/10, 9/10, 9/10, 1/10].getD j 0
          < intent_router.maxScore [2/10, 9/10, 9/10, 1/10])) := by
  have hconf : intent_router.threshold < intent_router.maxScore [2/10, 9/10, 9/10, 1/10] := by
    norm_num [intent_router.threshold, intent_router.maxScore, max_def]
  exact ⟨hconf, C2_semantic_path_argmax [2/10, 9/10, 9/10, 1/10] none hconf⟩

/-- C1 counterexample: with every similarity at 0.2 (below the threshold)
and the fallback generation succeeding with the prose reply
"I think it is the email one", `route` returns that prose verbatim — a
string that is neither in the catalog's label set nor the default label —
so the claim as stated is false on the code. -/
theorem C1_counterexample :
    (intent_router.route [2/10, 2/10, 2/10, 2/10, 2/10, 2/10, 2/10, 2/10, 2/10, 2/10,
        2/10, 2/10, 2/10] (some "I think it is the email one")).label
      = "I think it is the email one" ∧
    "I think it is the email one" ∉ intent_router.routes.map Prod.snd ∧
    "I think it is the email one" ≠ intent_router.defaultLabel := by
  have hlow : ¬ intent_router.threshold
      < intent_router.maxScore [2/10, 2/10, 2/10, 2/10, 2/10, 2/10, 2/10, 2/10, 2/10, 2/10,
        2/10, 2/10, 2/10] := by
    norm_num [intent_router.threshold, intent_router.maxScore, max_def]
  refine ⟨?_, by decide, by decide⟩
  unfold intent_router.route
  rw [if_neg hlow]
  decide

/-- C1 (amended): on the semantic path `route` returns a label from the
catalog's label set; on the fallback path it returns the generation reply
stripped of surrounding whitespace exactly as produced, with no validation
against the label set, and it returns the documented deterministic default
label — the first-declared category — only when the generation call itself
fails.  In every case it returns some string rather than raising. -/
theorem C1_route_amended (scores : List ℚ) (r : String)
    (hlen : scores.length = intent_router.routes.length) :
    (intent_router.threshold < intent_router.maxScore scores →
       (intent_router.route scores (some r)).label ∈ intent_router.routes.map Prod.snd) ∧
    (¬ intent_router.threshold < intent_router.maxScore scores →
       ((intent_router.route scores (some r)).label = pyStrip r ∧
        (intent_router.route scores none).label = intent_router.defaultLabel)) ∧
    intent_router.defaultLabel = (intent_router.routes.headD ("", "")).2 := by
  refine ⟨?_, ?_, rfl⟩
  · intro hconf
    have hne : scores ≠ [] := by
      intro h
      subst h
      rw [show intent_router.maxScore [] = 0 from rfl] at hconf
      norm_num [intent_router.threshold] at hconf
    have hlt : intent_router.argmaxIdx scores < intent_router.routes.length := by
      rw [← hlen]
      exact intent_router.argmaxIdx_lt_length scores hne
    have hmem : intent_router.routes.getD (intent_router.argmaxIdx scores) ("", "")
        ∈ intent_router.routes := intent_router.getD_mem_of_lt hlt _
    have hlabel : (intent_router.route scores (some r)).label
        = (intent_router.routes.getD (intent_router.argmaxIdx scores) ("", "")).2 := by
      unfold intent_router.route
      rw [if_pos hconf]
    rw [hlabel]
    exact List.mem_map_of_mem Prod.snd hmem
  · intro hlow
    unfold intent_router.route
    rw [if_neg hlow, if_neg hlow]
    exact ⟨rfl, rfl⟩

/-- Witness for C1 (amended) at a concrete below-threshold score vector of
catalog length and a whitespace-padded reply. -/
theorem C1_route_amended_witness :
    ([2/10, 2/10, 2/10, 2/10, 2/10, 2/10, 2/10, 2/10, 2/10, 2/10, 2/10, 2/10,
        (2/10 : ℚ)] : List ℚ).length = intent_router.routes.length ∧
    ((intent_router.threshold
        < intent_router.maxScore [2/10, 2/10, 2/10, 2/10, 2/10, 2/10, 2/10, 2/10, 2/10,
            2/10, 2/10, 2/10, 2/10] →
       (intent_router.route [2/10, 2/10, 2/10, 2/10, 2/10, 2/10, 2/10, 2/10, 2/10, 2/10,
            2/10, 2/10, 2/10]
          (some "  EmailPrioritizerAgent  ")).label ∈ intent_router.routes.map Prod.snd) ∧
     (¬ intent_router.threshold
        < intent_router.maxScore [2/10, 2/10, 2/10, 2/10, 2/10, 2/10, 2/10, 2/10, 2/10,
            2/10, 2/10, 2/10, 2/10] →
       ((intent_router.route [2/10, 2/10, 2/10, 2/10, 2/10, 2/10, 2/10, 2/10, 2/10, 2/10,
            2/10, 2/10, 2/10]
            (some "  EmailPrioritizerAgent  ")).label = pyStrip "  EmailPrioritizerAgent  " ∧
        (intent_router.route [2/10, 2/10, 2/10, 2/10, 2/10, 2/10, 2/10, 2/10, 2/10, 2/10,
            2/10, 2/10, 2/10] none).label
          = intent_router.defaultLabel)) ∧
     intent_router.defaultLabel = (intent_router.routes.headD ("", "")).2) :=
  ⟨by decide,
   C1_route_amended [2/10, 2/10, 2/10, 2/10, 2/10, 2/10, 2/10, 2/10, 2/10, 2/10, 2/10,
     2/10, 2/10] "  EmailPrioritizerAgent  " (by decide)⟩

/-- C3: when the generation call made during the fallback fails, `route`
absorbs the failure and returns the same deterministic default label used
for a failed fallback — "PromptOptimizerAgent", the first-declared
category's label — marking the fallback path; being a total function into
`RouteResult` it never returns a null label and never propagates the
error. -/
theorem C3_generation_failure_defaults (scores : List ℚ)
    (hlow : ¬ intent_router.threshold < intent_router.maxScore scores) :
    (intent_router.route scores none).label = intent_router.defaultLabel ∧
    (intent_router.route scores none).usedFallback = true ∧
    intent_router.defaultLabel = "PromptOptimizerAgent" ∧
    intent_router.defaultLabel = (intent_router.routes.headD ("", "")).2 := by
  unfold intent_router.route
  rw [if_neg hlow]
  exact ⟨rfl, rfl, rfl, rfl⟩

/-- Witness for C3 at a concrete below-threshold score vector. -/
theorem C3_generation_failure_defaults_witness :
    (¬ intent_router.threshold
        < intent_router.maxScore [1/10, 1/10, 1/10, 1/10, 1/10, 1/10, 1/10, 1/10, 1/10,
            1/10, 1/10, 1/10, 1/10]) ∧
    ((intent_router.route [1/10, 1/10, 1/10, 1/10, 1/10, 1/10, 1/10, 1/10, 1/10, 1/10,
          1/10, 1/10, 1/10] none).label
        = intent_router.defaultLabel ∧
     (intent_router.route [1/10, 1/10, 1/10, 1/10, 1/10, 1/10, 1/10, 1/10, 1/10, 1/10,
          1/10, 1/10, 1/10] none).usedFallback = true ∧
     intent_router.defaultLabel = "PromptOptimizerAgent" ∧
     intent_router.defaultLabel = (intent_router.routes.headD ("", "")).2) := by
  have hlow : ¬ intent_router.threshold
      < intent_router.maxScore [1/10, 1/10, 1/10, 1/10, 1/10, 1/10, 1/10, 1/10, 1/10,
          1/10, 1/10, 1/10, 1/10] := by
    norm_num [intent_router.threshold, intent_router.maxScore, max_def]
  exact ⟨hlow, C3_generation_failure_defaults _ hlow⟩

lemma urgMatchEnd_none_of_head {c : Char} {cs : List Char} (hc : c ≠ '"') :
    urgMatchEnd (c :: cs) = none := by
  unfold urgMatchEnd
  rw [if_neg]
  intro hpre
  have hp : urgKey.isPrefixOf (c :: cs) = true := hpre
  rw [show urgKey = '"' :: "urgency_score\"".toList from rfl] at hp
  simp [List.isPrefixOf] at hp
  exact hc (by simpa using hp.1.symm)

lemma findUrgencies_eq_nil : ∀ {l : List Char}, '"' ∉ l → findUrgencies l = [] := by
  intro l
  induction l with
  | nil => intro _; rw [findUrgencies]
  | cons c cs ih =>
    intro h
    have hc : c ≠ '"' := fun hc => h (hc ▸ List.mem_cons_self ..)
    have hm : urgMatchEnd (c :: cs) = none := urgMatchEnd_none_of_head hc
    rw [findUrgencies]
    split
    · next n r heq => rw [hm] at heq; exact absurd heq (by simp)
    · exact ih (fun hmem => h (List.mem_cons_of_mem _ hmem))

/-- C7: scoring is a total function of every (request, response) pair —
empty, malformed or non-JSON response text included — and the absence of
the expected structural markers yields the documented low baseline
sub-scores rather than an error: a response containing none of the expected
quoted keys gets prompt-structure 0.4, content json_compliance 0.2 and
email triage signal 0.4, and a response with no urgency-score match gets
urgency consistency 0.5. -/
theorem C7_malformed_response_degrades (req resp : String)
    (hkeys : ∀ k ∈ ["original_prompt", "optimized_prompt", "explanation",
        "professional_summary", "experience", "skills", "education", "tailoring_notes",
        "sender", "subject", "urgency_score", "category", "recommended_action"],
        strContains resp ("\"" ++ k ++ "\"") = false)
    (hurg : findUrgencies resp.toList = []) :
    (prompt_optimizer.score_prompt_optimization req resp).structure_score = 4/10 ∧
    (content_optimizer.score_resume_rewrite req resp).json_compliance = 2/10 ∧
    (email_prioritizer.score_email_prioritization req resp).triage_accuracy_signal = 4/10 ∧
    (email_prioritizer.score_email_prioritization req resp).urgency_consistency = 1/2 := by
  refine ⟨?_, ?_, ?_, ?_⟩
  · have h1 : strContains resp "\"original_prompt\"" = false := by
      rw [show ("\"original_prompt\"" : String) = "\"" ++ "original_prompt" ++ "\"" from rfl]
      exact hkeys "original_prompt" (by simp)
    have h2 : strContains resp "\"optimized_prompt\"" = false := by
      rw [show ("\"optimized_prompt\"" : String) = "\"" ++ "optimized_prompt" ++ "\"" from rfl]
      exact hkeys "optimized_prompt" (by simp)
    have h3 : strContains resp "\"explanation\"" = false := by
      rw [show ("\"explanation\"" : String) = "\"" ++ "explanation" ++ "\"" from rfl]
      exact hkeys "explanation" (by simp)
    rw [prompt_optimizer.structure_score_eq, h1, h2, h3]
    norm_num
  · have hz : (["professional_summary", "experience", "skills", "education",
        "tailoring_notes"].countP (fun k => strContains resp ("\"" ++ k ++ "\""))) = 0 := by
      refine List.countP_eq_zero.mpr ?_
      intro k hk
      have : strContains resp ("\"" ++ k ++ "\"") = false := by
        apply hkeys
        simp only [List.mem_cons] at hk ⊢
        tauto
      simp [this]
    rw [content_optimizer.json_compliance_eq, hz]
    norm_num
  · have hz : (["sender", "subject", "urgency_score", "category",
        "recommended_action"].countP (fun k => strContains resp ("\"" ++ k ++ "\""))) = 0 := by
      refine List.countP_eq_zero.mpr ?_
      intro k hk
      have : strContains resp ("\"" ++ k ++ "\"") = false := by
        apply hkeys
        simp only [List.mem_cons] at hk ⊢
        tauto
      simp [this]
    rw [email_prioritizer.triage_accuracy_signal_eq, hz]
    norm_num
  · rw [email_prioritizer.urgency_consistency_eq, hurg]
    simp

/-- Witness for C7 at the concrete pair ("hi", "garbage"): the response has
no quoted keys and no urgency-score matches, so every marker-based
sub-score sits at its baseline. -/
theorem C7_malformed_response_degrades_witness :
    ((∀ k ∈ ["original_prompt", "optimized_prompt", "explanation",
        "professional_summary", "experience", "skills", "education", "tailoring_notes",
        "sender", "subject", "urgency_score", "category", "recommended_action"],
        strContains "garbage" ("\"" ++ k ++ "\"") = false) ∧
     findUrgencies "garbage".toList = []) ∧
    ((prompt_optimizer.score_prompt_optimization "hi" "garbage").structure_score = 4/10 ∧
     (content_optimizer.score_resume_rewrite "hi" "garbage").json_compliance = 2/10 ∧
     (email_prioritizer.score_email_prioritization "hi"
        "garbage").triage_accuracy_signal = 4/10 ∧
     (email_prioritizer.score_email_prioritization "hi"
        "garbage").urgency_consistency = 1/2) :=
  ⟨⟨by decide, findUrgencies_eq_nil (by decide)⟩,
   C7_malformed_response_degrades "hi" "garbage" (by decide)
     (findUrgencies_eq_nil (by decide))⟩

/-- C8: cosine similarity as used by the router is symmetric, always lies
in [-1, 1] (by the Cauchy–Schwarz inequality), and similarity involving a
zero vector is defined as 0 rather than NaN or undefined. -/
theorem C8_cosine_similarity_props (a b z : List ℝ) (n : ℕ) :
    similarity.cosineSimilarity a b = similarity.cosineSimilarity b a ∧
    -1 ≤ similarity.cosineSimilarity a b ∧
    similarity.cosineSimilarity a b ≤ 1 ∧
    similarity.cosineSimilarity (List.replicate n 0) z = 0 := by
  refine ⟨?_, ?_, ?_, ?_⟩
  · unfold similarity.cosineSimilarity
    rw [similarity.dotL_comm a b, mul_comm (similarity.normL a) (similarity.normL b)]
  · unfold similarity.cosineSimilarity
    split
    · norm_num
    · next hne =>
      have hnn : 0 ≤ similarity.normL a * similarity.normL b :=
        mul_nonneg (Real.sqrt_nonneg _) (Real.sqrt_nonneg _)
      have hpos : 0 < similarity.normL a * similarity.normL b :=
        lt_of_le_of_ne hnn (Ne.symm hne)
      have habs := similarity.abs_dot_le_norm_mul_norm a b
      rw [abs_le] at habs
      rw [le_div_iff₀ hpos]
      linarith [habs.1]
  · unfold similarity.cosineSimilarity
    split
    · norm_num
    · next hne =>
      have hnn : 0 ≤ similarity.normL a * similarity.normL b :=
        mul_nonneg (Real.sqrt_nonneg _) (Real.sqrt_nonneg _)
      have hpos : 0 < similarity.normL a * similarity.normL b :=
        lt_of_le_of_ne hnn (Ne.symm hne)
      have habs := similarity.abs_dot_le_norm_mul_norm a b
      rw [abs_le] at habs
      rw [div_le_one hpos]
      exact habs.2
  · unfold similarity.cosineSimilarity
    have hz : similarity.normL (List.replicate n (0 : ℝ)) = 0 := by
      unfold similarity.normL
      rw [similarity.dotL_replicate_zero, Real.sqrt_zero]
    rw [hz, zero_mul, if_pos rfl]

end AgentForge
